import Mathlib

/-
  Verification development for the AI-Devops-Platform log pipeline.

  Shallow embedding of the core components:
  - backend/services/log_processor.py   (LogProcessor)
  - backend/services/alert_engine.py    (detect_alerts and cooldown state)
  - backend/services/queue_service.py   (InMemoryQueue)
  - backend/services/redis_stream_service.py (pending-message reclamation)
  - backend/services/groq_service.py    (analyze_log failure handling)
  - backend/consumers/stream_consumer.py (batch flush and acknowledgment)

  Machine state is passed explicitly; fallible Python code is modelled with
  Except; external I/O outcomes are parameters of the embedded functions.
-/

namespace AIDevops

/-! ## Python value model

Raw log records are loosely typed string-keyed maps.  We model the values
that can appear in them, together with the Python coercions the source
applies to them: str(), truthiness, .upper(), substring membership. -/

inductive PyVal where
  | vStr (s : String)
  | vInt (n : Int)
  | vDict (entries : List (String × PyVal))
  | vNone

/-- A raw record, as delivered by the queue: a string-keyed map. -/
abbrev RawRecord := List (String × PyVal)

/-- Python dict lookup `log.get(k)` returning None when the key is absent. -/
def rawLookup (log : RawRecord) (k : String) : Option PyVal :=
  List.lookup k log

/-- Python `log.get(k, default)`. -/
def rawGetD (log : RawRecord) (k : String) (d : PyVal) : PyVal :=
  (rawLookup log k).getD d

/-- Models Python str() on the values a record can hold. -/
def pyStr : PyVal → String
  | .vStr s => s
  | .vInt n => toString n
  | .vDict _ => "<dict>"
  | .vNone => "None"

/-- Models Python truthiness on the values a record can hold. -/
def pyTruthy : PyVal → Bool
  | .vStr s => s != ""
  | .vInt n => n != 0
  | .vDict es => !es.isEmpty
  | .vNone => false

/-- Models Python str.upper() for the ASCII range the level keywords use. -/
def pyUpper (s : String) : String :=
  String.mk (s.data.map Char.toUpper)

/-- Contiguous-sublist test on lists, used to model substring search. -/
def listInfix [BEq α] (needle hay : List α) : Bool :=
  (List.range (hay.length + 1)).any (fun i => needle.isPrefixOf (hay.drop i))

/-- Models Python substring membership `needle in hay`. -/
def pyContains (hay needle : String) : Bool :=
  listInfix needle.data hay.data

/-- Models Python slicing `s[:n]` on str: the first n characters. -/
def pyTake (n : Nat) (s : String) : String :=
  String.mk (s.data.take n)

/-! ## LogProcessor (backend/services/log_processor.py) -/

/-- `LogProcessor.LOG_LEVELS`, in declared order. -/
def LOG_LEVELS : List String :=
  ["DEBUG", "INFO", "WARNING", "ERROR", "CRITICAL", "FATAL"]

/-- `LogProcessor._extract_log_level`: explicit field uppercased and
validated; else scan the uppercased raw message field for a keyword in
declared order; else INFO. -/
def extract_log_level (log : RawRecord) : String :=
  let scan : String :=
    let message := pyUpper (pyStr (rawGetD log "message" (.vStr "")))
    match LOG_LEVELS.find? (fun lv => pyContains message lv) with
    | some lv => lv
    | none => "INFO"
  match rawLookup log "level" with
  | some v =>
      let level := pyUpper (pyStr v)
      if level ∈ LOG_LEVELS then level else scan
  | none => scan

/-- `LogProcessor._extract_message`: message field, else msg field, else
the empty string, coerced through str(). -/
def extract_message (log : RawRecord) : String :=
  pyStr (rawGetD log "message" (rawGetD log "msg" (.vStr "")))

/-- Models Python `s.replace("Z", "+00:00")`: every Z replaced. -/
def replaceZ (s : String) : String :=
  String.mk (s.data.foldr
    (fun c acc => if c = 'Z' then "+00:00".data ++ acc else c :: acc) [])

/-- Models the acceptance domain of `datetime.fromisoformat`: the string
must start with a four-digit year, dash, two-digit month, dash, two-digit
day, optionally followed by a one-character separator and a time part that
starts with two digits.  This under-approximates the full ISO-8601 grammar
but agrees with it on the strings used in this development; in particular
it rejects every string holding no digits at all, as CPython does. -/
def fromisoformatOk (s : String) : Bool :=
  match s.data with
  | y1 :: y2 :: y3 :: y4 :: '-' :: m1 :: m2 :: '-' :: d1 :: d2 :: rest =>
      (y1.isDigit && y2.isDigit && y3.isDigit && y4.isDigit &&
       m1.isDigit && m2.isDigit && d1.isDigit && d2.isDigit) &&
      (match rest with
       | [] => true
       | _sep :: h1 :: h2 :: _ => h1.isDigit && h2.isDigit
       | _ => false)
  | _ => false

/-- Outcome of timestamp resolution, recording which branch of
`_extract_timestamp` produced the value. -/
inductive TsResult where
  | parsed (isoText : String)
  | given (v : PyVal)
  | nowTime

/-- `LogProcessor._extract_timestamp`.  The source evaluates
`log.get("timestamp") or log.get("@timestamp")` (Python `or`, so a falsy
timestamp value falls through), then, for a truthy string value, calls
`datetime.fromisoformat(ts.replace("Z", "+00:00"))` with no exception
handler: an unparseable string propagates ValueError to the caller. -/
def extract_timestamp (log : RawRecord) : Except String TsResult :=
  let tsA := rawGetD log "timestamp" .vNone
  let ts := if pyTruthy tsA then tsA else rawGetD log "@timestamp" .vNone
  if pyTruthy ts then
    match ts with
    | .vStr s =>
        let s2 := replaceZ s
        if fromisoformatOk s2 then .ok (.parsed s2) else .error "ValueError"
    | v => .ok (.given v)
  else
    .ok .nowTime

/-- The ordered classification taxonomy of
`LogProcessor._load_error_patterns`, in table order. -/
def ERROR_TYPES : List String :=
  ["CONNECTION_ERROR", "TIMEOUT_ERROR", "MEMORY_ERROR", "DATABASE_ERROR",
   "PERMISSION_ERROR", "NOT_FOUND_ERROR", "SERVER_ERROR",
   "AUTHENTICATION_ERROR"]

/-- Case-insensitive substring test, modelling `re.search` of a literal
with re.IGNORECASE. -/
def icontains (hay needle : String) : Bool :=
  pyContains (pyUpper hay) (pyUpper needle)

/-- Searches for `a` followed (anywhere later) by `b`, case-insensitively:
an executable model of `re.search("a.*b", hay, re.IGNORECASE)`. -/
def iseq (hay a b : String) : Bool :=
  let h := (pyUpper hay).data
  let pa := (pyUpper a).data
  let pb := (pyUpper b).data
  (List.range (h.length + 1)).any
    (fun i => pa.isPrefixOf (h.drop i) && listInfix pb (h.drop (i + pa.length)))

/-- `LogProcessor._classify_error`: the ordered pattern table evaluated
first-match-wins, UNKNOWN_ERROR when nothing matches.  Each regex of
`_load_error_patterns` is rendered as the equivalent executable test on the
message (alternation becomes disjunction, `x.*y` becomes iseq). -/
def classify_error (message : String) : String :=
  if iseq message "connection" "refused" || icontains message "ECONNREFUSED" then
    "CONNECTION_ERROR"
  else if icontains message "timeout" || icontains message "timed out" then
    "TIMEOUT_ERROR"
  else if icontains message "out of memory" || icontains message "oom" then
    "MEMORY_ERROR"
  else if icontains message "database" || iseq message "db" "error" then
    "DATABASE_ERROR"
  else if icontains message "permission" || icontains message "403" ||
          icontains message "forbidden" then
    "PERMISSION_ERROR"
  else if icontains message "404" || icontains message "not found" then
    "NOT_FOUND_ERROR"
  else if icontains message "500" || icontains message "internal server" then
    "SERVER_ERROR"
  else if icontains message "authentication" || iseq message "auth" "failed" then
    "AUTHENTICATION_ERROR"
  else
    "UNKNOWN_ERROR"

/-- `LogProcessor._extract_stack_trace`: the first structural pattern is a
search for the CPython traceback header, whose match (with re.DOTALL)
extends to the end of the string; the result is truncated to 2000
characters.  The second pattern (a JS-style frame) is modelled as a search
for the frame prefix "at " followed later by a parenthesised location; on
a match we return the suffix from the frame start, truncated, which agrees
with the regex on the single-frame messages this development evaluates. -/
def extract_stack_trace (log : RawRecord) : Option String :=
  let message := pyStr (rawGetD log "message" (.vStr ""))
  let h := message.data
  let tb := "Traceback (most recent call last):".data
  match (List.range (h.length + 1)).find? (fun i => tb.isPrefixOf (h.drop i)) with
  | some i => some (String.mk ((h.drop i).take 2000))
  | none =>
      let fr := "at ".data
      match (List.range (h.length + 1)).find?
          (fun i => fr.isPrefixOf (h.drop i) &&
                    listInfix ['('] (h.drop i) && listInfix [')'] (h.drop i)) with
      | some i => some (String.mk ((h.drop i).take 2000))
      | none => none

/-! ## GroqAIService.analyze_log (backend/services/groq_service.py)

Only the failure-handling structure matters to the claims.  The outcome of
the external chat-completion call is a parameter: `.error e` when the call
raised (with str(e) = e), `.ok raw` when it returned content.  JSON
decoding of the content is likewise a parameter. -/

/-- The structured result `analyze_log` hands back: either a parsed
analysis object, or one of the error-marker dicts of the source, each of
shape with a single key "error" carrying the given text. -/
inductive Annot where
  | analysis (fields : List (String × PyVal))
  | errMark (text : String)

/-- Models Python slicing `s[n:]`. -/
def pyDrop (n : Nat) (s : String) : String :=
  String.mk (s.data.drop n)

/-- `GroqAIService.analyze_log`: with no configured client it returns the
not-configured error marker; when the external call raises it catches and
returns an error marker holding str(e); when the returned content fails to
decode as JSON it returns the invalid-JSON error marker; otherwise the
decoded analysis.  It never raises. -/
def analyze_log (configured : Bool) (callOutcome : Except String String)
    (jsonParse : String → Option (List (String × PyVal))) : Annot :=
  if !configured then .errMark "Groq AI not configured"
  else
    match callOutcome with
    | .error e => .errMark e
    | .ok raw =>
        let content := raw.trim
        let content :=
          if "```".isPrefixOf content then
            let c := (content.splitOn "```").getD 1 ""
            let c := if "json".isPrefixOf c then pyDrop 4 c else c
            c.trim
          else content
        match jsonParse content with
        | some fields => .analysis fields
        | none => .errMark "Invalid JSON response from AI"

/-! ## LogProcessor.process -/

/-- The enriched event `LogProcessor.process` builds.  Fields copied from
the raw record without str() coercion keep their PyVal type. -/
structure LogEvent where
  id : String
  timestamp : TsResult
  level : String
  message : String
  service : PyVal
  src : PyVal
  environment : PyVal
  host : PyVal
  metadata : PyVal
  error_type : Option String
  stack_trace : Option String
  ai_analysis : Option Annot

/-- Ambient inputs of one `process` call: the generated uuid, whether a
groq service was attached, and the behaviour of the awaited
`groq.analyze_log` call (`.error` when that call raises). -/
structure ProcEnv where
  freshId : String
  groqPresent : Bool
  annotate : Except String Annot

/-- `LogProcessor.process`.  Timestamp extraction may raise (propagated as
`.error`); level, message and the copied fields are total; for
error-severity levels the classifier and stack-trace extractor run and the
annotator is invoked inside try/except — an annotator exception leaves
`ai_analysis` at None and is only logged. -/
def process (env : ProcEnv) (raw_log : RawRecord) : Except String LogEvent := do
  let ts ← extract_timestamp raw_log
  let base : LogEvent := {
    id := env.freshId
    timestamp := ts
    level := extract_log_level raw_log
    message := extract_message raw_log
    service := rawGetD raw_log "service" (.vStr "unknown")
    src := rawGetD raw_log "source" (.vStr "unknown")
    environment := rawGetD raw_log "environment" (.vStr "production")
    host := rawGetD raw_log "host" (.vStr "unknown")
    metadata := rawGetD raw_log "metadata" (.vDict [])
    error_type := none
    stack_trace := none
    ai_analysis := none }
  if base.level ∈ (["ERROR", "CRITICAL", "FATAL"] : List String) then
    let ai : Option Annot :=
      if env.groqPresent then
        match env.annotate with
        | .ok a => some a
        | .error _ => none
      else none
    return { base with
      error_type := some (classify_error base.message)
      stack_trace := extract_stack_trace raw_log
      ai_analysis := ai }
  else
    return base

/-! ## AlertEngine (backend/services/alert_engine.py)

The module-level ALERT_COOLDOWN dict and `datetime.utcnow()` become
explicit arguments: the cooldown map is an association list whose write
`ALERT_COOLDOWN[key] = now` is modelled by consing the new binding (lookup
finds the newest binding, matching dict-assignment semantics), and time is
an integer count of microseconds, the resolution of Python datetime
arithmetic.  The builtin `hash` on str is a parameter. -/

/-- The record fields `detect_alerts` reads from each log dict. -/
structure AlertLog where
  level : String
  service : String
  message : String
deriving DecidableEq, Repr

/-- Cooldown state: alert-rule-instance key to the instant it last fired. -/
abbrev CooldownMap := List (String × Int)

def COOLDOWN_MINUTES : Nat := 5

/-- `timedelta(minutes=COOLDOWN_MINUTES)` in microseconds. -/
def cooldownDelta : Int := (COOLDOWN_MINUTES : Int) * 60 * 1000000

/-- `_in_cooldown`: false when the key was never stored, else true exactly
when the stored instant is strictly within the window of now. -/
def in_cooldown (cd : CooldownMap) (key : String) (now : Int) : Bool :=
  match cd.lookup key with
  | none => false
  | some t => decide (now - t < cooldownDelta)

/-- The guarded-fire step each rule instance of `detect_alerts` performs:
check the cooldown for the instance key against the threaded state; when
suppressed leave alerts and state untouched, otherwise append the alert
text and store now under the key. -/
def fireGuard (key text : String) (now : Int)
    (acc : List String × CooldownMap) : List String × CooldownMap :=
  if in_cooldown acc.2 key now then acc
  else (acc.1 ++ [text], (key, now) :: acc.2)

/-- The key order of `collections.Counter` built from xs: first-occurrence
order, each key once. -/
def counterKeys (xs : List String) : List String :=
  xs.foldl (fun ks x => if x ∈ ks then ks else ks ++ [x]) []

/-- `collections.Counter(xs)` as an ordered list of (key, multiplicity). -/
def counter (xs : List String) : List (String × Nat) :=
  (counterKeys xs).map (fun k => (k, xs.count k))

/-- The error-spike alert text of `detect_alerts`. -/
def spikeText (n : Nat) : String :=
  "🔥 *CRITICAL*\nError spike detected: " ++ toString n ++
  " errors in short time window"

/-- The service-failure alert text of `detect_alerts`. -/
def serviceText (service : String) (count : Nat) : String :=
  "🚨 *HIGH*\nService failure detected\nService: `" ++ service ++
  "`\nErrors: " ++ toString count

/-- The recurring-error alert text of `detect_alerts`; the message is
truncated to its first 120 characters. -/
def recurringText (count : Nat) (msg : String) : String :=
  "⚠️ *WARNING*\nRecurring error detected (" ++ toString count ++
  " times)\n`" ++ pyTake 120 msg ++ "`"

/-- The rule-evaluation body of `detect_alerts` over the ERROR sublist:
three rules in order — spike at threshold 5 under key ERROR_SPIKE,
per-service failure at threshold 3 under SERVICE_FAIL_<s>, recurring
message at threshold 3 under RECURRING_<hash(msg)> — each firing gated
through the cooldown map, which threads through the call. -/
def detectCore (pyhash : String → Int) (error_logs : List AlertLog)
    (cd : CooldownMap) (now : Int) : List String × CooldownMap :=
  let acc0 : List String × CooldownMap := ([], cd)
  let acc1 :=
    if 5 ≤ error_logs.length then
      fireGuard "ERROR_SPIKE" (spikeText error_logs.length) now acc0
    else acc0
  let acc2 := (counter (error_logs.map (fun l => l.service))).foldl
    (fun acc p =>
      if 3 ≤ p.2 then
        fireGuard ("SERVICE_FAIL_" ++ p.1) (serviceText p.1 p.2) now acc
      else acc) acc1
  (counter (error_logs.map (fun l => l.message))).foldl
    (fun acc p =>
      if 3 ≤ p.2 then
        fireGuard ("RECURRING_" ++ toString (pyhash p.1))
          (recurringText p.2 p.1) now acc
      else acc) acc2

/-- `detect_alerts`: empty input returns immediately; otherwise the list
of events at level ERROR feeds the rule body. -/
def detect_alerts (pyhash : String → Int) (logs : List AlertLog)
    (cd : CooldownMap) (now : Int) : List String × CooldownMap :=
  if logs.isEmpty then ([], cd)
  else detectCore pyhash (logs.filter (fun l => l.level == "ERROR")) cd now

/-! ## InMemoryQueue (backend/services/queue_service.py)

asyncio.Queue with its stats dict and the recent-logs deque, as one
explicit state.  A maxsize of 0 models the asyncio unbounded queue (the
source default is 10000). -/

structure QState (α : Type) where
  maxsize : Nat
  queue : List α
  total_enqueued : Nat
  total_processed : Nat
  queue_full_count : Nat
  processing_errors : Nat
  recent_logs : List α

/-- A fresh `InMemoryQueue(maxsize)`. -/
def initQ (α : Type) (maxsize : Nat) : QState α :=
  { maxsize := maxsize, queue := [], total_enqueued := 0,
    total_processed := 0, queue_full_count := 0, processing_errors := 0,
    recent_logs := [] }

/-- The recent-logs deque with maxlen 100: append drops from the left
once full. -/
def pushRecent (r : List α) (x : α) : List α :=
  let r2 := r ++ [x]
  r2.drop (r2.length - 100)

/-- `InMemoryQueue.enqueue`: put_nowait raises QueueFull exactly when the
queue is bounded and at capacity, in which case the queue-full counter
(the dropped counter of the spec) increments and False returns; otherwise
the item is appended, the enqueued counter increments, the recent deque
records it, and True returns. -/
def enqueue (q : QState α) (x : α) : Bool × QState α :=
  if 0 < q.maxsize ∧ q.maxsize ≤ q.queue.length then
    (false, { q with queue_full_count := q.queue_full_count + 1 })
  else
    (true, { q with queue := q.queue ++ [x],
                    total_enqueued := q.total_enqueued + 1,
                    recent_logs := pushRecent q.recent_logs x })

/-- `InMemoryQueue.dequeue`: the head if one is available within the
timeout, None on timeout (modelled as the empty-queue case). -/
def dequeue (q : QState α) : Option α × QState α :=
  match q.queue with
  | [] => (none, q)
  | x :: rest => (some x, { q with queue := rest })

/-- `InMemoryQueue.dequeue_batch`: one blocking get (so at least one item
when any is available), then up to batch_size - 1 non-blocking gets. -/
def dequeue_batch (q : QState α) (batch_size : Nat) : List α × QState α :=
  match q.queue with
  | [] => ([], q)
  | _ =>
      let k := min (max batch_size 1) q.queue.length
      (q.queue.take k, { q with queue := q.queue.drop k })

/-- One client operation against the queue. -/
inductive QOp (α : Type) where
  | enq (x : α)
  | deq
  | deqBatch (n : Nat)

/-- State reached after one operation. -/
def applyOp (q : QState α) : QOp α → QState α
  | .enq x => (enqueue q x).2
  | .deq => (dequeue q).2
  | .deqBatch n => (dequeue_batch q n).2

/-- State reached after a sequence of operations. -/
def runOps (q : QState α) (ops : List (QOp α)) : QState α :=
  ops.foldl applyOp q

/-! ## RedisStreamService pending-message reclamation
(backend/services/redis_stream_service.py)

The pending entries list (PEL) of the consumer group is the explicit
state: one entry per delivered-but-unacknowledged message, in id order,
with its idle clock in milliseconds and the payload XCLAIM would hand
back. -/

structure PendingEntry where
  message_id : String
  consumer : String
  idle_time : Nat
  data : String
deriving DecidableEq, Repr

/-- `get_pending_messages`: XPENDING over the full range with count=100,
so only the first 100 pending entries are returned. -/
def get_pending_messages (pending : List PendingEntry) : List PendingEntry :=
  pending.take 100

/-- Models XCLAIM over the given ids: each requested id that is pending
and still idle beyond min_idle_time is reassigned and returned with its
payload. -/
def xclaimModel (pending : List PendingEntry) (minIdle : Nat)
    (ids : List String) : List PendingEntry :=
  ids.filterMap (fun i =>
    match pending.find? (fun e => e.message_id == i) with
    | some e => if minIdle < e.idle_time then some e else none
    | none => none)

/-- `claim_pending_messages`: scan the (capped) pending list, keep the
ids idle strictly beyond min_idle_time, claim them, and return
(message_id, decoded payload) pairs. -/
def claim_pending_messages (pending : List PendingEntry)
    (min_idle_time : Nat) : List (String × String) :=
  let p := get_pending_messages pending
  if p.isEmpty then []
  else
    let idle_message_ids :=
      (p.filter (fun e => min_idle_time < e.idle_time)).map
        (fun e => e.message_id)
    if idle_message_ids.isEmpty then []
    else
      (xclaimModel pending min_idle_time idle_message_ids).map
        (fun e => (e.message_id, e.data))

/-! ## StreamConsumerWorker flush path
(backend/consumers/stream_consumer.py)

The batch-full path of `start`: `_process_batch(batch)` runs, then the
batch ids are passed to `stream_service.acknowledge`.  `_process_batch`
catches every exception internally (logging and counting it), and
`bulk_index` itself catches persistence failures and returns 0, so the
flush never raises and the acknowledge call is reached unconditionally.
The OpenSearch bulk outcome is a parameter: `.ok (succ, failed)` when the
helper returned counts, `.error e` when it raised. -/

/-- One processed log as the consumer batches it. -/
structure ConsumedLog where
  id : String
  stream_message_id : String
deriving DecidableEq, Repr

/-- The worker statistics `_process_batch` updates. -/
structure WorkerStats where
  processed : Nat
  errors : Nat
deriving DecidableEq, Repr

/-- `OpenSearchClient.bulk_index`: 0 for an empty batch; the success count
when the bulk helper returns; 0 (with a logged error) when it raises —
it never propagates the failure. -/
def bulk_index (logs : List ConsumedLog)
    (outcome : Except String (Nat × Nat)) : Nat :=
  if logs.isEmpty then 0
  else
    match outcome with
    | .ok p => p.1
    | .error _ => 0

/-- `StreamConsumerWorker._process_batch`: indexes the batch and adds its
size to the processed counter.  Its except branch (errors counter) is
unreachable through persistence failure, because `bulk_index` already
caught it and returned 0. -/
def process_batch (stats : WorkerStats) (logs : List ConsumedLog)
    (persistOutcome : Except String (Nat × Nat)) : WorkerStats × Nat :=
  let success := bulk_index logs persistOutcome
  ({ stats with processed := stats.processed + logs.length }, success)

/-- The batch-full path of `StreamConsumerWorker.start`: flush through
`_process_batch`, then acknowledge every message id of the batch.  The
second component is the id list handed to `acknowledge` (XACK). -/
def flushFullBatch (stats : WorkerStats) (batch : List ConsumedLog)
    (persistOutcome : Except String (Nat × Nat)) :
    WorkerStats × List String :=
  let r := process_batch stats batch persistOutcome
  (r.1, batch.map (fun l => l.stream_message_id))

/-! ## Small helpers for the theorems -/

/-- First character of an alert text or cooldown key; the three alert
kinds and the three key families each start with a distinct character. -/
def alertHead (s : String) : Option Char :=
  s.data.head?

/-- Whether an Except value carries a result rather than an exception. -/
def exceptOk (x : Except ε α) : Bool :=
  match x with
  | .ok _ => true
  | .error _ => false

/-- A JSON decoder that always fails, for closing off the unused decoding
branch in concrete evaluations. -/
def jsonNone : String → Option (List (String × PyVal)) :=
  fun _ => none

/-- The acceptance-scenario batch of the spec: three ERROR records of the
payments service with distinct messages. -/
def pay3 : List AlertLog :=
  [⟨"ERROR", "payments", "m1"⟩, ⟨"ERROR", "payments", "m2"⟩,
   ⟨"ERROR", "payments", "m3"⟩]

/-! ## Claims about the processor raising (C2) and the flush path (C1) -/

/-- C2: the claim states that `LogEnricher.process` returns for every raw
record, degrading an unparseable timestamp to a default instead of
raising.  The code contradicts it: `_extract_timestamp` calls
`datetime.fromisoformat` on any truthy string timestamp with no exception
handler, so the record below makes `process` propagate ValueError.  The
spec states the total-enrichment contract as deliberate design, so this
is recorded as a code bug at this input. -/
theorem c2_process_raises_on_malformed_timestamp :
    process ⟨"id-0", false, .error "unused"⟩
        [("timestamp", PyVal.vStr "garbage")] =
      Except.error "ValueError" := rfl

/-- C1 counterexample: the claim states that a persistence failure leaves
the batch unacknowledged.  On the code, a failing bulk index is caught
(`bulk_index` returns 0) and the batch-full path of
`StreamConsumerWorker.start` still hands every message id of the batch to
`acknowledge`. -/
theorem c1_counterexample :
    bulk_index [⟨"id1", "1-1"⟩] (Except.error "opensearch down") = 0 ∧
    (flushFullBatch ⟨0, 0⟩ [⟨"id1", "1-1"⟩]
        (Except.error "opensearch down")).2 = ["1-1"] :=
  ⟨rfl, rfl⟩

/-- C1 amended: a persistence failure is swallowed inside the flush —
`bulk_index` returns a success count of 0 and the batch still counts as
processed — and the batch-full path acknowledges every source message of
the batch unconditionally, so the messages do not remain pending. -/
theorem c1_ack_unconditional (stats : WorkerStats) (batch : List ConsumedLog)
    (e : String) :
    (flushFullBatch stats batch (Except.error e)).2 =
      batch.map (fun l => l.stream_message_id) ∧
    bulk_index batch (Except.error e) = 0 ∧
    (flushFullBatch stats batch (Except.error e)).1.processed =
      stats.processed + batch.length := by
  refine ⟨rfl, ?_, rfl⟩
  cases batch <;> simp [bulk_index]

/-- C9 counterexample: the claim states that a failing Annotator call
results in an absent annotation.  On the code, `analyze_log` catches the
failure and returns an error-marker dict, which `process` stores in the
annotation field: the field is populated, not absent. -/
theorem c9_counterexample :
    (process ⟨"id-9", true,
        .ok (analyze_log true (.error "connection timeout") jsonNone)⟩
        [("level", PyVal.vStr "ERROR"), ("message", PyVal.vStr "boom")]).map
      (fun ev => ev.ai_analysis) =
    Except.ok (some (Annot.errMark "connection timeout")) := rfl

/-- C9 amended: a failure of the external Annotator call never raises out
of `process` (the call result cannot abort processing), but on an
error-severity record the returned event carries an error-marker
annotation holding the failure text — the annotation field is populated
with the marker rather than left absent. -/
theorem c9_annotator_failure_marks_annotation (raw : RawRecord)
    (fid e : String) (jp : String → Option (List (String × PyVal)))
    (ann : Except String Annot) (ts : TsResult)
    (hlv : extract_log_level raw ∈ (["ERROR", "CRITICAL", "FATAL"] : List String))
    (hts : extract_timestamp raw = .ok ts) :
    (process ⟨fid, true, .ok (analyze_log true (.error e) jp)⟩ raw).map
        (fun ev => ev.ai_analysis) =
      Except.ok (some (Annot.errMark e)) ∧
    exceptOk (process ⟨fid, true, ann⟩ raw) = true := by
  have hann : analyze_log true (.error e) jp = .errMark e := rfl
  constructor
  · simp only [process, hts, hann, bind, Except.bind]
    rw [if_pos hlv]
    rfl
  · simp only [process, hts, bind, Except.bind]
    split <;> rfl

/-- Closed instance of the C9 amended theorem. -/
theorem c9_annotator_failure_marks_annotation_witness :
    (process ⟨"i", true, .ok (analyze_log true (.error "x") jsonNone)⟩
        [("level", PyVal.vStr "ERROR")]).map (fun ev => ev.ai_analysis) =
      Except.ok (some (Annot.errMark "x")) ∧
    exceptOk (process ⟨"i", true, .error "x"⟩
        [("level", PyVal.vStr "ERROR")]) = true :=
  c9_annotator_failure_marks_annotation [("level", PyVal.vStr "ERROR")]
    "i" "x" jsonNone (.error "x") .nowTime (by decide) rfl

/-! ## Bounded queue (C5) -/

lemma applyOp_maxsize (q : QState α) (op : QOp α) :
    (applyOp q op).maxsize = q.maxsize := by
  cases op with
  | enq x =>
      simp only [applyOp, enqueue]
      split <;> rfl
  | deq =>
      simp only [applyOp, dequeue]
      split <;> rfl
  | deqBatch n =>
      simp only [applyOp, dequeue_batch]
      split <;> rfl

lemma applyOp_depth (q : QState α) (op : QOp α) (hpos : 0 < q.maxsize)
    (hle : q.queue.length ≤ q.maxsize) :
    (applyOp q op).queue.length ≤ q.maxsize := by
  cases op with
  | enq x =>
      simp only [applyOp, enqueue]
      split
      · exact hle
      · rename_i hc
        have hlt : q.queue.length < q.maxsize := by
          by_contra hge
          exact hc ⟨hpos, Nat.le_of_not_lt hge⟩
        simpa using hlt
  | deq =>
      simp only [applyOp, dequeue]
      split
      · exact hle
      · rename_i x rest hq
        simp only
        have : q.queue.length = rest.length + 1 := by rw [hq]; rfl
        omega
  | deqBatch n =>
      simp only [applyOp, dequeue_batch]
      split
      · exact hle
      · simp only [List.length_drop]
        omega

lemma runOps_depth (ops : List (QOp α)) :
    ∀ q : QState α, 0 < q.maxsize → q.queue.length ≤ q.maxsize →
      (runOps q ops).queue.length ≤ q.maxsize := by
  induction ops with
  | nil => intro q _ hle; exact hle
  | cons op ops ih =>
      intro q hpos hle
      have hms := applyOp_maxsize q op
      have h1 : (runOps (applyOp q op) ops).queue.length ≤ (applyOp q op).maxsize :=
        ih (applyOp q op) (hms ▸ hpos) (hms ▸ applyOp_depth q op hpos hle)
      simpa [runOps, hms] using h1

/-- C5: enqueue at capacity fails fast — it returns false, leaves the
queue contents and the enqueued counter untouched, and increments the
queue-full (dropped) counter by one — and the queue depth never exceeds
the configured capacity after any operation sequence on a fresh bounded
queue. -/
theorem c5_capacity_drop_and_depth_bound (α : Type) (x : α) (q : QState α)
    (hpos : 0 < q.maxsize) (hfull : q.queue.length = q.maxsize)
    (ms : Nat) (hms : 0 < ms) (ops : List (QOp α)) :
    (enqueue q x).1 = false ∧
    (enqueue q x).2.queue = q.queue ∧
    (enqueue q x).2.queue_full_count = q.queue_full_count + 1 ∧
    (enqueue q x).2.total_enqueued = q.total_enqueued ∧
    (runOps (initQ α ms) ops).queue.length ≤ ms := by
  have hcond : 0 < q.maxsize ∧ q.maxsize ≤ q.queue.length := ⟨hpos, hfull.ge⟩
  refine ⟨?_, ?_, ?_, ?_, ?_⟩
  · simp [enqueue, hcond]
  · simp [enqueue, hcond]
  · simp [enqueue, hcond]
  · simp [enqueue, hcond]
  · exact runOps_depth ops (initQ α ms) hms (by simp [initQ])

/-- Closed instance of the C5 theorem: a one-slot queue at capacity
rejects the enqueue and counts the drop, and a fresh one-slot queue stays
within depth 1 under an enqueue-heavy operation sequence. -/
theorem c5_capacity_drop_and_depth_bound_witness :
    (enqueue (⟨1, [7], 1, 0, 0, 0, [7]⟩ : QState Nat) 9).1 = false ∧
    (enqueue (⟨1, [7], 1, 0, 0, 0, [7]⟩ : QState Nat) 9).2.queue = [7] ∧
    (enqueue (⟨1, [7], 1, 0, 0, 0, [7]⟩ : QState Nat) 9).2.queue_full_count
      = 0 + 1 ∧
    (enqueue (⟨1, [7], 1, 0, 0, 0, [7]⟩ : QState Nat) 9).2.total_enqueued
      = 1 ∧
    (runOps (initQ Nat 1)
        [.enq 1, .enq 2, .enq 3, .deq, .enq 4, .deqBatch 5]).queue.length
      ≤ 1 :=
  c5_capacity_drop_and_depth_bound Nat 9 ⟨1, [7], 1, 0, 0, 0, [7]⟩
    (by decide) rfl 1 (by decide)
    [.enq 1, .enq 2, .enq 3, .deq, .enq 4, .deqBatch 5]

/-! ## Stale-claim reclamation (C6) -/

/-- A pending set of 101 stale entries, every one idle beyond the
threshold used below. -/
def cexPending : List PendingEntry :=
  (List.range 101).map (fun i => ⟨toString i, "c1", 70000, "p"⟩)

/-- C6 counterexample: the claim states that a delivered-but-unacked
message is reclaimed exactly when its idle time exceeds the threshold.
On the code, `get_pending_messages` scans with count=100, so with 101
pending entries the 101st — here id "100", idle 70000 > 60000 — is
absent from the reclamation result. -/
theorem c6_counterexample :
    (⟨"100", "c1", 70000, "p"⟩ : PendingEntry) ∈ cexPending ∧
    60000 < 70000 ∧
    ((claim_pending_messages cexPending 60000).all
      (fun pr => pr.1 != "100")) = true := by
  refine ⟨?_, by decide, by decide⟩
  exact List.mem_map.mpr ⟨100, by decide, rfl⟩

lemma find?_eq_self_of_nodup_ids (e : PendingEntry) :
    ∀ pending : List PendingEntry,
      (pending.map (fun x => x.message_id)).Nodup → e ∈ pending →
      pending.find? (fun x => x.message_id == e.message_id) = some e := by
  intro pending
  induction pending with
  | nil => intro _ h; cases h
  | cons h t ih =>
      intro hnd hmem
      rw [List.map_cons, List.nodup_cons] at hnd
      rcases List.mem_cons.mp hmem with rfl | hmt
      · simp [List.find?_cons]
      · have hne : h.message_id ≠ e.message_id := by
          intro hid
          exact hnd.1 (hid ▸ List.mem_map.mpr ⟨e, hmt, rfl⟩)
        rw [List.find?_cons]
        have : (h.message_id == e.message_id) = false := beq_false_of_ne hne
        rw [this]
        exact ih hnd.2 hmt

lemma xclaim_of_kept (pending : List PendingEntry) (minIdle : Nat)
    (hnd : (pending.map (fun x => x.message_id)).Nodup) :
    ∀ L : List PendingEntry,
      (∀ e ∈ L, e ∈ pending ∧ minIdle < e.idle_time) →
      xclaimModel pending minIdle (L.map (fun e => e.message_id)) = L := by
  intro L
  induction L with
  | nil => intro _; rfl
  | cons e t ih =>
      intro hL
      have he := hL e (List.mem_cons_self e t)
      simp only [List.map_cons, xclaimModel, List.filterMap_cons]
      rw [find?_eq_self_of_nodup_ids e pending hnd he.1]
      simp only [he.2, if_pos]
      rw [show (t.map (fun e => e.message_id)).filterMap _ =
            xclaimModel pending minIdle (t.map (fun e => e.message_id)) from rfl]
      rw [ih (fun x hx => hL x (List.mem_cons_of_mem e hx))]

/-- C6 amended: within the 100-entry window `get_pending_messages` scans
(XPENDING with count=100), a pending message is claimed exactly when its
idle time strictly exceeds the threshold: the reclamation result is the
idle-filtered prefix of the pending set, as (id, payload) pairs.  Entries
beyond the scan window are not examined in that call. -/
theorem c6_reclaim_characterization (pending : List PendingEntry)
    (minIdle : Nat)
    (hnd : (pending.map (fun x => x.message_id)).Nodup) :
    claim_pending_messages pending minIdle =
      ((pending.take 100).filter (fun e => minIdle < e.idle_time)).map
        (fun e => (e.message_id, e.data)) := by
  unfold claim_pending_messages get_pending_messages
  by_cases hp : (pending.take 100).isEmpty
  · rw [List.isEmpty_iff.mp hp]
    simp
  · simp only [hp, if_false, Bool.false_eq_true]
    by_cases hi : (((pending.take 100).filter
        (fun e => minIdle < e.idle_time)).map (fun e => e.message_id)).isEmpty
    · have hf : (pending.take 100).filter (fun e => minIdle < e.idle_time) = [] := by
        have := List.isEmpty_iff.mp hi
        exact List.map_eq_nil_iff.mp this
      simp [hi, hf]
    · simp only [hi, if_false, Bool.false_eq_true]
      have hkept : ∀ e ∈ (pending.take 100).filter
          (fun e => minIdle < e.idle_time), e ∈ pending ∧ minIdle < e.idle_time := by
        intro e he
        have h1 := List.mem_of_mem_filter he
        have h2 := List.of_mem_filter he
        exact ⟨(List.take_sublist 100 pending).subset h1, by simpa using h2⟩
      rw [xclaim_of_kept pending minIdle hnd _ hkept]

/-- Closed instance of the C6 amended theorem on a two-entry pending set,
one stale and one fresh. -/
theorem c6_reclaim_characterization_witness :
    claim_pending_messages
        [⟨"1-1", "c", 70000, "a"⟩, ⟨"1-2", "c", 50000, "b"⟩] 60000 =
      (([(⟨"1-1", "c", 70000, "a"⟩ : PendingEntry),
         ⟨"1-2", "c", 50000, "b"⟩].take 100).filter
        (fun e => 60000 < e.idle_time)).map
        (fun e => (e.message_id, e.data)) :=
  c6_reclaim_characterization
    [⟨"1-1", "c", 70000, "a"⟩, ⟨"1-2", "c", 50000, "b"⟩] 60000 (by decide)

/-! ## Alert-engine lemmas -/

lemma detectCore_nil (ph : String → Int) (cd : CooldownMap) (now : Int) :
    detectCore ph [] cd now = ([], cd) := rfl

lemma detect_alerts_eq_core (ph : String → Int) (logs : List AlertLog)
    (cd : CooldownMap) (now : Int) :
    detect_alerts ph logs cd now =
      detectCore ph (logs.filter (fun l => l.level == "ERROR")) cd now := by
  by_cases h : logs.isEmpty
  · rw [List.isEmpty_iff.mp h]
    rfl
  · simp [detect_alerts, h]

lemma head_spikeText (n : Nat) : alertHead (spikeText n) = some '🔥' := rfl

lemma head_serviceText (s : String) (c : Nat) :
    alertHead (serviceText s c) = some '🚨' := rfl

lemma head_recurringText (c : Nat) (m : String) :
    alertHead (recurringText c m) = some '⚠' := rfl

lemma head_service_key (s : String) :
    alertHead ("SERVICE_FAIL_" ++ s) = some 'S' := rfl

lemma head_recurring_key (h : Int) :
    alertHead ("RECURRING_" ++ toString h) = some 'R' := rfl

lemma ne_of_alertHead_ne {a b : String} (h : alertHead a ≠ alertHead b) :
    a ≠ b :=
  fun e => h (e ▸ rfl)

/-- The service-failure pass leaves the count of alerts whose text fails
the given character test unchanged when no service alert passes it. -/
lemma countP_serviceFold (now : Int) (p : String → Bool)
    (hp : ∀ s c, p (serviceText s c) = false) :
    ∀ (entries : List (String × Nat)) (acc : List String × CooldownMap),
      List.countP p ((entries.foldl (fun acc q =>
        if 3 ≤ q.2 then
          fireGuard ("SERVICE_FAIL_" ++ q.1) (serviceText q.1 q.2) now acc
        else acc) acc).1) = List.countP p acc.1 := by
  intro entries
  induction entries with
  | nil => intro acc; rfl
  | cons e t ih =>
      intro acc
      rw [List.foldl_cons, ih]
      by_cases h3 : 3 ≤ e.2
      · rw [if_pos h3]
        unfold fireGuard
        by_cases hc : in_cooldown acc.2 ("SERVICE_FAIL_" ++ e.1) now
        · rw [if_pos hc]
        · rw [if_neg hc]
          simp [List.countP_append, List.countP_singleton, hp]
      · rw [if_neg h3]

/-- The recurring-message pass leaves the count of alerts whose text
fails the given character test unchanged when no recurring alert passes
it. -/
lemma countP_recurFold (ph : String → Int) (now : Int) (p : String → Bool)
    (hp : ∀ c m, p (recurringText c m) = false) :
    ∀ (entries : List (String × Nat)) (acc : List String × CooldownMap),
      List.countP p ((entries.foldl (fun acc q =>
        if 3 ≤ q.2 then
          fireGuard ("RECURRING_" ++ toString (ph q.1))
            (recurringText q.2 q.1) now acc
        else acc) acc).1) = List.countP p acc.1 := by
  intro entries
  induction entries with
  | nil => intro acc; rfl
  | cons e t ih =>
      intro acc
      rw [List.foldl_cons, ih]
      by_cases h3 : 3 ≤ e.2
      · rw [if_pos h3]
        unfold fireGuard
        by_cases hc : in_cooldown acc.2 ("RECURRING_" ++ toString (ph e.1)) now
        · rw [if_pos hc]
        · rw [if_neg hc]
          simp [List.countP_append, List.countP_singleton, hp]
      · rw [if_neg h3]

/-- C10: the three alert rules see only the events whose level is exactly
the string ERROR — the evaluation result coincides with evaluating the
ERROR-filtered batch — and a batch with no ERROR-level event (for
example, all CRITICAL or FATAL) fires nothing and leaves the cooldown
state untouched. -/
theorem c10_rules_count_only_error_level (ph : String → Int)
    (cd : CooldownMap) (now : Int) (logs1 logs2 : List AlertLog)
    (hno : ∀ l ∈ logs2, l.level ≠ "ERROR") :
    detect_alerts ph logs1 cd now =
      detect_alerts ph (logs1.filter (fun l => l.level == "ERROR")) cd now ∧
    detect_alerts ph logs2 cd now = ([], cd) := by
  constructor
  · rw [detect_alerts_eq_core, detect_alerts_eq_core]
    simp [List.filter_filter]
  · rw [detect_alerts_eq_core]
    have hf : logs2.filter (fun l => l.level == "ERROR") = [] := by
      rw [List.filter_eq_nil_iff]
      intro l hl
      simpa using hno l hl
    rw [hf, detectCore_nil]

/-- Closed instance of the C10 theorem on mixed-severity batches. -/
theorem c10_rules_count_only_error_level_witness :
    detect_alerts (fun _ => 0)
        [⟨"CRITICAL", "s", "m"⟩, ⟨"ERROR", "s", "m"⟩] [] 0 =
      detect_alerts (fun _ => 0)
        ([(⟨"CRITICAL", "s", "m"⟩ : AlertLog), ⟨"ERROR", "s", "m"⟩].filter
          (fun l => l.level == "ERROR")) [] 0 ∧
    detect_alerts (fun _ => 0)
        [⟨"CRITICAL", "s", "m"⟩, ⟨"FATAL", "s", "m"⟩, ⟨"CRITICAL", "s", "m"⟩,
         ⟨"FATAL", "s", "m"⟩, ⟨"CRITICAL", "s", "m"⟩] [] 0 = ([], []) :=
  c10_rules_count_only_error_level (fun _ => 0) [] 0
    [⟨"CRITICAL", "s", "m"⟩, ⟨"ERROR", "s", "m"⟩]
    [⟨"CRITICAL", "s", "m"⟩, ⟨"FATAL", "s", "m"⟩, ⟨"CRITICAL", "s", "m"⟩,
     ⟨"FATAL", "s", "m"⟩, ⟨"CRITICAL", "s", "m"⟩] (by decide)

/-- C4: with no ERROR_SPIKE cooldown in effect, evaluation emits exactly
one error-spike alert when the batch holds at least five ERROR-level
events, and none when it holds four or fewer. -/
theorem c4_error_spike_threshold (ph : String → Int) (logs : List AlertLog)
    (cd : CooldownMap) (now : Int)
    (hcd : in_cooldown cd "ERROR_SPIKE" now = false) :
    List.countP (fun s => alertHead s == some '🔥')
        (detect_alerts ph logs cd now).1 =
      if 5 ≤ (logs.filter (fun l => l.level == "ERROR")).length then 1
      else 0 := by
  rw [detect_alerts_eq_core]
  unfold detectCore
  rw [countP_recurFold ph now _ (fun c m => by simp [head_recurringText]),
      countP_serviceFold now _ (fun s c => by simp [head_serviceText])]
  by_cases h5 : 5 ≤ (logs.filter (fun l => l.level == "ERROR")).length
  · rw [if_pos h5, if_pos h5]
    unfold fireGuard
    simp only [hcd, Bool.false_eq_true, if_false]
    simp [List.countP_singleton, head_spikeText]
  · rw [if_neg h5, if_neg h5]
    rfl

/-- Closed instances of the C4 theorem: five ERROR events fire exactly
one spike alert; four fire none. -/
theorem c4_error_spike_threshold_witness :
    List.countP (fun s => alertHead s == some '🔥')
        (detect_alerts (fun _ => 0)
          [⟨"ERROR", "s1", "a"⟩, ⟨"ERROR", "s2", "b"⟩, ⟨"ERROR", "s3", "c"⟩,
           ⟨"ERROR", "s4", "d"⟩, ⟨"ERROR", "s5", "e"⟩] [] 0).1 =
      if 5 ≤ ([(⟨"ERROR", "s1", "a"⟩ : AlertLog), ⟨"ERROR", "s2", "b"⟩,
               ⟨"ERROR", "s3", "c"⟩, ⟨"ERROR", "s4", "d"⟩,
               ⟨"ERROR", "s5", "e"⟩].filter
          (fun l => l.level == "ERROR")).length then 1 else 0 :=
  c4_error_spike_threshold (fun _ => 0)
    [⟨"ERROR", "s1", "a"⟩, ⟨"ERROR", "s2", "b"⟩, ⟨"ERROR", "s3", "c"⟩,
     ⟨"ERROR", "s4", "d"⟩, ⟨"ERROR", "s5", "e"⟩] [] 0 rfl

/-! ## Counter lemmas -/

lemma counterKeys_aux_mem (a : String) :
    ∀ (xs ks : List String),
      (a ∈ xs.foldl (fun ks x => if x ∈ ks then ks else ks ++ [x]) ks ↔
        a ∈ ks ∨ a ∈ xs) := by
  intro xs
  induction xs with
  | nil => intro ks; simp
  | cons x t ih =>
      intro ks
      rw [List.foldl_cons]
      by_cases hx : x ∈ ks
      · rw [if_pos hx, ih]
        simp only [List.mem_cons]
        constructor
        · rintro (h | h)
          · exact Or.inl h
          · exact Or.inr (Or.inr h)
        · rintro (h | rfl | h)
          · exact Or.inl h
          · exact Or.inl hx
          · exact Or.inr h
      · rw [if_neg hx, ih]
        simp only [List.mem_append, List.mem_singleton, List.mem_cons]
        tauto

lemma counterKeys_aux_nodup :
    ∀ (xs ks : List String), ks.Nodup →
      (xs.foldl (fun ks x => if x ∈ ks then ks else ks ++ [x]) ks).Nodup := by
  intro xs
  induction xs with
  | nil => intro ks h; exact h
  | cons x t ih =>
      intro ks h
      rw [List.foldl_cons]
      by_cases hx : x ∈ ks
      · rw [if_pos hx]; exact ih ks h
      · rw [if_neg hx]
        refine ih _ (List.nodup_append.mpr ⟨h, List.nodup_singleton x, ?_⟩)
        intro b hb hbx
        rw [List.mem_singleton] at hbx
        subst hbx
        exact hx hb

lemma mem_counterKeys (xs : List String) (a : String) :
    a ∈ counterKeys xs ↔ a ∈ xs := by
  unfold counterKeys
  rw [counterKeys_aux_mem]
  simp

lemma counterKeys_nodup (xs : List String) : (counterKeys xs).Nodup :=
  counterKeys_aux_nodup xs [] List.nodup_nil

lemma counter_mem {xs : List String} {q : String × Nat}
    (h : q ∈ counter xs) : q.1 ∈ xs ∧ q.2 = xs.count q.1 := by
  unfold counter at h
  rcases List.mem_map.mp h with ⟨k, hk, he⟩
  cases he
  exact ⟨(mem_counterKeys xs k).mp hk, rfl⟩

lemma self_mem_counter {xs : List String} {a : String} (h : a ∈ xs) :
    (a, xs.count a) ∈ counter xs :=
  List.mem_map.mpr ⟨a, (mem_counterKeys xs a).mpr h, rfl⟩

lemma counter_keys_nodup (xs : List String) :
    ((counter xs).map Prod.fst).Nodup := by
  unfold counter
  rw [List.map_map]
  have hc : (Prod.fst ∘ fun k => (k, xs.count k)) = id := rfl
  rw [hc, List.map_id]
  exact counterKeys_nodup xs

/-! ## Cooldown-map extension lemmas -/

lemma lookup_extend_of_key_ne (k : String) (extras cd : CooldownMap)
    (h : ∀ kp ∈ extras, kp.1 ≠ k) :
    List.lookup k (extras ++ cd) = List.lookup k cd := by
  rw [List.lookup_append]
  have hnone : List.lookup k extras = none := by
    rw [List.lookup_eq_none_iff]
    intro p hp
    exact bne_iff_ne.mpr (Ne.symm (h p hp))
  rw [hnone, Option.none_or]

lemma in_cooldown_extend (k : String) (extras cd : CooldownMap) (now : Int)
    (h : ∀ kp ∈ extras, kp.1 ≠ k) :
    in_cooldown (extras ++ cd) k now = in_cooldown cd k now := by
  unfold in_cooldown
  rw [lookup_extend_of_key_ne k extras cd h]

/-- The service-failure pass only prepends SERVICE_FAIL_ keys (all
starting with the character S) onto the cooldown map. -/
lemma snd_serviceFold_extends (now : Int) :
    ∀ (entries : List (String × Nat)) (acc : List String × CooldownMap),
      ∃ extras : CooldownMap,
        ((entries.foldl (fun acc q =>
          if 3 ≤ q.2 then
            fireGuard ("SERVICE_FAIL_" ++ q.1) (serviceText q.1 q.2) now acc
          else acc) acc).2) = extras ++ acc.2 ∧
        ∀ kp ∈ extras, alertHead kp.1 = some 'S' := by
  intro entries
  induction entries with
  | nil => intro acc; exact ⟨[], rfl, by simp⟩
  | cons e t ih =>
      intro acc
      rw [List.foldl_cons]
      by_cases h3 : 3 ≤ e.2
      · rw [if_pos h3]
        unfold fireGuard
        by_cases hc : in_cooldown acc.2 ("SERVICE_FAIL_" ++ e.1) now
        · rw [if_pos hc]; exact ih acc
        · rw [if_neg hc]
          rcases ih (acc.1 ++ [serviceText e.1 e.2],
              ("SERVICE_FAIL_" ++ e.1, now) :: acc.2) with ⟨ex, hex, hall⟩
          refine ⟨ex ++ [("SERVICE_FAIL_" ++ e.1, now)], ?_, ?_⟩
          · rw [List.append_assoc]
            simpa using hex
          · intro kp hkp
            rcases List.mem_append.mp hkp with h | h
            · exact hall kp h
            · rw [List.mem_singleton] at h
              subst h
              exact head_service_key e.1
      · rw [if_neg h3]; exact ih acc

/-! ## Recurring-rule fold lemmas -/

lemma recurFold_skip (ph : String → Int) (now : Int) :
    ∀ (entries : List (String × Nat)) (acc : List String × CooldownMap),
      (∀ e ∈ entries, e.2 < 3) →
      entries.foldl (fun acc q =>
        if 3 ≤ q.2 then
          fireGuard ("RECURRING_" ++ toString (ph q.1))
            (recurringText q.2 q.1) now acc
        else acc) acc = acc := by
  intro entries
  induction entries with
  | nil => intro acc _; rfl
  | cons e t ih =>
      intro acc hall
      rw [List.foldl_cons,
        if_neg (Nat.not_le.mpr (hall e (List.mem_cons_self e t)))]
      exact ih acc (fun x hx => hall x (List.mem_cons_of_mem e hx))

/-- When exactly one counter entry — the one for msg, carrying cnt —
reaches the recurring threshold and its rule instance is not cooling
down, the recurring pass appends exactly its alert and stores exactly
its key. -/
lemma recurFold_unique (ph : String → Int) (now : Int) (msg : String)
    (cnt : Nat) (hcnt : 3 ≤ cnt) :
    ∀ (entries : List (String × Nat)) (acc : List String × CooldownMap),
      (msg, cnt) ∈ entries →
      (∀ e ∈ entries, e.1 ≠ msg → e.2 < 3) →
      (entries.map Prod.fst).Nodup →
      in_cooldown acc.2 ("RECURRING_" ++ toString (ph msg)) now = false →
      entries.foldl (fun acc q =>
        if 3 ≤ q.2 then
          fireGuard ("RECURRING_" ++ toString (ph q.1))
            (recurringText q.2 q.1) now acc
        else acc) acc =
        (acc.1 ++ [recurringText cnt msg],
         ("RECURRING_" ++ toString (ph msg), now) :: acc.2) := by
  intro entries
  induction entries with
  | nil => intro acc h; cases h
  | cons e t ih =>
      intro acc hmem hsmall hnd hcool
      rw [List.map_cons, List.nodup_cons] at hnd
      rcases List.mem_cons.mp hmem with he | hmt
      · cases he.symm
        rw [List.foldl_cons, if_pos hcnt]
        unfold fireGuard
        simp only [hcool, Bool.false_eq_true, if_false]
        refine recurFold_skip ph now t _ ?_
        intro x hx
        have hne : x.1 ≠ msg := by
          intro h1
          exact hnd.1 (h1 ▸ List.mem_map.mpr ⟨x, hx, rfl⟩)
        exact hsmall x (List.mem_cons_of_mem _ hx) hne
      · have hne : e.1 ≠ msg := by
          intro h1
          refine hnd.1 ?_
          rw [h1]
          exact List.mem_map.mpr ⟨(msg, cnt), hmt, rfl⟩
        rw [List.foldl_cons,
          if_neg (Nat.not_le.mpr (hsmall e (List.mem_cons_self e t) hne))]
        exact ih acc hmt
          (fun x hx h => hsmall x (List.mem_cons_of_mem e hx) h) hnd.2 hcool

/-- The spike pass adds no alert passing a test that spike texts fail,
and only (possibly) the ERROR_SPIKE key onto the cooldown map. -/
lemma spikePhase_facts (cd : CooldownMap) (now : Int) (len : Nat)
    (p : String → Bool) (hp : ∀ n, p (spikeText n) = false) :
    List.countP p ((if 5 ≤ len then
        fireGuard "ERROR_SPIKE" (spikeText len) now (([] : List String), cd)
      else (([] : List String), cd)).1) = 0 ∧
    ∃ ex1 : CooldownMap,
      (if 5 ≤ len then
        fireGuard "ERROR_SPIKE" (spikeText len) now (([] : List String), cd)
      else (([] : List String), cd)).2 = ex1 ++ cd ∧
      ∀ kp ∈ ex1, alertHead kp.1 = some 'E' := by
  by_cases h5 : 5 ≤ len
  · simp only [if_pos h5]
    unfold fireGuard
    by_cases hc : in_cooldown cd "ERROR_SPIKE" now
    · simp only [if_pos hc]
      exact ⟨rfl, [], rfl, by simp⟩
    · simp only [if_neg hc]
      refine ⟨?_, [("ERROR_SPIKE", now)], rfl, ?_⟩
      · simp [List.countP_singleton, hp]
      · intro kp hkp
        rw [List.mem_singleton] at hkp
        subst hkp
        rfl
  · simp only [if_neg h5]
    exact ⟨rfl, [], rfl, by simp⟩

/-- C7: with the rule instance of msg not cooling down, if msg is the
message text of at least three ERROR events in the batch (and no other
message reaches that threshold), evaluation emits exactly one recurring
alert, it is the alert for msg, and the message text inside it is
truncated to at most 120 characters. -/
theorem c7_recurring_message (ph : String → Int) (logs : List AlertLog)
    (cd : CooldownMap) (now : Int) (msg : String)
    (hm : 3 ≤ ((logs.filter (fun l => l.level == "ERROR")).map
      (fun l => l.message)).count msg)
    (huniq : ∀ m2 ∈ (logs.filter (fun l => l.level == "ERROR")).map
      (fun l => l.message), m2 ≠ msg →
      ((logs.filter (fun l => l.level == "ERROR")).map
        (fun l => l.message)).count m2 < 3)
    (hcd : in_cooldown cd ("RECURRING_" ++ toString (ph msg)) now = false) :
    List.countP (fun s => alertHead s == some '⚠')
        (detect_alerts ph logs cd now).1 = 1 ∧
    recurringText (((logs.filter (fun l => l.level == "ERROR")).map
        (fun l => l.message)).count msg) msg ∈
      (detect_alerts ph logs cd now).1 ∧
    (pyTake 120 msg).length ≤ 120 := by
  rw [detect_alerts_eq_core]
  set E := logs.filter (fun l => l.level == "ERROR") with hE
  have hmsgmem : msg ∈ E.map (fun l => l.message) :=
    List.count_pos_iff.mp (Nat.lt_of_lt_of_le (by decide) hm)
  have hwarn : ∀ n, (fun s => alertHead s == some '⚠') (spikeText n) = false :=
    fun n => by simp [head_spikeText]
  obtain ⟨hs1, ex1, hex1, hall1⟩ :=
    spikePhase_facts cd now E.length (fun s => alertHead s == some '⚠') hwarn
  have hs2 := countP_serviceFold now (fun s => alertHead s == some '⚠')
    (fun s c => by simp [head_serviceText])
    (counter (E.map (fun l => l.service)))
    (if 5 ≤ E.length then
      fireGuard "ERROR_SPIKE" (spikeText E.length) now (([] : List String), cd)
    else (([] : List String), cd))
  obtain ⟨ex2, hex2, hall2⟩ :=
    snd_serviceFold_extends now (counter (E.map (fun l => l.service)))
      (if 5 ≤ E.length then
        fireGuard "ERROR_SPIKE" (spikeText E.length) now
          (([] : List String), cd)
      else (([] : List String), cd))
  have hcool2 : in_cooldown
      (((counter (E.map (fun l => l.service))).foldl (fun acc q =>
        if 3 ≤ q.2 then
          fireGuard ("SERVICE_FAIL_" ++ q.1) (serviceText q.1 q.2) now acc
        else acc)
        (if 5 ≤ E.length then
          fireGuard "ERROR_SPIKE" (spikeText E.length) now
            (([] : List String), cd)
        else (([] : List String), cd))).2)
      ("RECURRING_" ++ toString (ph msg)) now = false := by
    rw [hex2, hex1, ← List.append_assoc,
      in_cooldown_extend _ (ex2 ++ ex1) cd now ?_]
    · exact hcd
    · intro kp hkp
      rcases List.mem_append.mp hkp with h | h
      · refine ne_of_alertHead_ne ?_
        rw [hall2 kp h, head_recurring_key]
        decide
      · refine ne_of_alertHead_ne ?_
        rw [hall1 kp h, head_recurring_key]
        decide
  have hsmall : ∀ e ∈ counter (E.map (fun l => l.message)),
      e.1 ≠ msg → e.2 < 3 := by
    intro e he hne
    obtain ⟨hmem', hcount'⟩ := counter_mem he
    rw [hcount']
    exact huniq e.1 hmem' hne
  have hrec := recurFold_unique ph now msg
    ((E.map (fun l => l.message)).count msg) hm
    (counter (E.map (fun l => l.message)))
    ((counter (E.map (fun l => l.service))).foldl (fun acc q =>
      if 3 ≤ q.2 then
        fireGuard ("SERVICE_FAIL_" ++ q.1) (serviceText q.1 q.2) now acc
      else acc)
      (if 5 ≤ E.length then
        fireGuard "ERROR_SPIKE" (spikeText E.length) now
          (([] : List String), cd)
      else (([] : List String), cd)))
    (self_mem_counter hmsgmem) hsmall (counter_keys_nodup _) hcool2
  have hcore : detectCore ph E cd now =
      (((counter (E.map (fun l => l.service))).foldl (fun acc q =>
        if 3 ≤ q.2 then
          fireGuard ("SERVICE_FAIL_" ++ q.1) (serviceText q.1 q.2) now acc
        else acc)
        (if 5 ≤ E.length then
          fireGuard "ERROR_SPIKE" (spikeText E.length) now
            (([] : List String), cd)
        else (([] : List String), cd))).1 ++
        [recurringText ((E.map (fun l => l.message)).count msg) msg],
       ("RECURRING_" ++ toString (ph msg), now) ::
        ((counter (E.map (fun l => l.service))).foldl (fun acc q =>
          if 3 ≤ q.2 then
            fireGuard ("SERVICE_FAIL_" ++ q.1) (serviceText q.1 q.2) now acc
          else acc)
          (if 5 ≤ E.length then
            fireGuard "ERROR_SPIKE" (spikeText E.length) now
              (([] : List String), cd)
          else (([] : List String), cd))).2) := hrec
  rw [hcore]
  refine ⟨?_, ?_, ?_⟩
  · rw [List.countP_append, hs2, hs1, List.countP_singleton]
    simp [head_recurringText]
  · exact List.mem_append.mpr (Or.inr (by simp))
  · simp only [pyTake, String.length, List.length_take]
    omega

/-- Closed instance of the C7 theorem: three identical db-timeout
errors fire exactly one recurring alert. -/
theorem c7_recurring_message_witness :
    List.countP (fun s => alertHead s == some '⚠')
        (detect_alerts (fun _ => 0)
          [⟨"ERROR", "s1", "db timeout"⟩, ⟨"ERROR", "s1", "db timeout"⟩,
           ⟨"ERROR", "s2", "db timeout"⟩] [] 0).1 = 1 ∧
    recurringText ((([(⟨"ERROR", "s1", "db timeout"⟩ : AlertLog),
          ⟨"ERROR", "s1", "db timeout"⟩, ⟨"ERROR", "s2", "db timeout"⟩].filter
        (fun l => l.level == "ERROR")).map
        (fun l => l.message)).count "db timeout") "db timeout" ∈
      (detect_alerts (fun _ => 0)
        [⟨"ERROR", "s1", "db timeout"⟩, ⟨"ERROR", "s1", "db timeout"⟩,
         ⟨"ERROR", "s2", "db timeout"⟩] [] 0).1 ∧
    (pyTake 120 "db timeout").length ≤ 120 :=
  c7_recurring_message (fun _ => 0)
    [⟨"ERROR", "s1", "db timeout"⟩, ⟨"ERROR", "s1", "db timeout"⟩,
     ⟨"ERROR", "s2", "db timeout"⟩] [] 0 "db timeout"
    (by decide) (by decide) rfl

/-! ## Cooldown suppression (C3) -/

/-- On the three-payments-errors batch, evaluation reduces to one guarded
firing of the SERVICE_FAIL_payments rule instance. -/
lemma detect_pay3 (ph : String → Int) (cd : CooldownMap) (now : Int) :
    detect_alerts ph pay3 cd now =
      if in_cooldown cd "SERVICE_FAIL_payments" now then ([], cd)
      else ([serviceText "payments" 3],
        ("SERVICE_FAIL_payments", now) :: cd) := rfl

/-- C3: a candidate firing whose stored instant is within the cooldown
window is suppressed with the state untouched; one with no stored
instant, or a stored instant at or beyond the window, is emitted and its
instant set to now; keys other than the fired one are untouched
(suppression is per rule instance); and on the spec scenario batch the
rule fires, is suppressed while inside the window, and fires again once
the window has elapsed. -/
theorem c3_cooldown_suppression (ph : String → Int) (cdA cdB : CooldownMap)
    (kA kB k2 txtA txtB : String) (tA : Int)
    (alertsA alertsB : List String) (now now2 now3 : Int)
    (h1 : cdA.lookup kA = some tA) (h2 : now - tA < cooldownDelta)
    (h3 : cdB.lookup kB = none ∨
      ∃ t, cdB.lookup kB = some t ∧ cooldownDelta ≤ now - t)
    (hk2 : k2 ≠ kB)
    (hs2 : now2 - now < cooldownDelta)
    (hs3 : cooldownDelta ≤ now3 - now) :
    fireGuard kA txtA now (alertsA, cdA) = (alertsA, cdA) ∧
    fireGuard kB txtB now (alertsB, cdB) =
      (alertsB ++ [txtB], (kB, now) :: cdB) ∧
    ((fireGuard kB txtB now (alertsB, cdB)).2).lookup k2 = cdB.lookup k2 ∧
    detect_alerts ph pay3 [] now =
      ([serviceText "payments" 3], [("SERVICE_FAIL_payments", now)]) ∧
    detect_alerts ph pay3 [("SERVICE_FAIL_payments", now)] now2 =
      ([], [("SERVICE_FAIL_payments", now)]) ∧
    detect_alerts ph pay3 [("SERVICE_FAIL_payments", now)] now3 =
      ([serviceText "payments" 3],
       [("SERVICE_FAIL_payments", now3), ("SERVICE_FAIL_payments", now)]) := by
  have hicA : in_cooldown cdA kA now = true := by
    unfold in_cooldown
    rw [h1]
    exact decide_eq_true h2
  have hicB : in_cooldown cdB kB now = false := by
    unfold in_cooldown
    rcases h3 with h | ⟨t, ht, hge⟩
    · rw [h]
    · rw [ht]
      exact decide_eq_false (Int.not_lt.mpr hge)
  have hicS2 : in_cooldown [("SERVICE_FAIL_payments", now)]
      "SERVICE_FAIL_payments" now2 = true := by
    unfold in_cooldown
    simp only [List.lookup_cons, beq_self_eq_true, if_true]
    exact decide_eq_true hs2
  have hicS3 : in_cooldown [("SERVICE_FAIL_payments", now)]
      "SERVICE_FAIL_payments" now3 = false := by
    unfold in_cooldown
    simp only [List.lookup_cons, beq_self_eq_true, if_true]
    exact decide_eq_false (Int.not_lt.mpr hs3)
  refine ⟨?_, ?_, ?_, ?_, ?_, ?_⟩
  · simp [fireGuard, hicA]
  · simp [fireGuard, hicB]
  · simp only [fireGuard, hicB, Bool.false_eq_true, if_false]
    simp [List.lookup_cons, beq_false_of_ne hk2]
  · rw [detect_pay3]
    rfl
  · rw [detect_pay3, if_pos hicS2]
  · rw [detect_pay3, if_neg (by rw [hicS3]; exact Bool.false_ne_true)]

/-- Closed instance of the C3 theorem at concrete instants: suppression
at 1 microsecond into the window, re-firing exactly when the 5-minute
window has elapsed. -/
theorem c3_cooldown_suppression_witness :
    fireGuard "k" "tA" 0 (["a0"], [("k", 0)]) = (["a0"], [("k", 0)]) ∧
    fireGuard "k" "tB" 0 ([], []) = ([] ++ ["tB"], [("k", 0)]) ∧
    ((fireGuard "k" "tB" 0 ([], [])).2).lookup "j" =
      ([] : CooldownMap).lookup "j" ∧
    detect_alerts (fun _ => 0) pay3 [] 0 =
      ([serviceText "payments" 3], [("SERVICE_FAIL_payments", 0)]) ∧
    detect_alerts (fun _ => 0) pay3 [("SERVICE_FAIL_payments", 0)] 1 =
      ([], [("SERVICE_FAIL_payments", 0)]) ∧
    detect_alerts (fun _ => 0) pay3 [("SERVICE_FAIL_payments", 0)]
        cooldownDelta =
      ([serviceText "payments" 3],
       [("SERVICE_FAIL_payments", cooldownDelta),
        ("SERVICE_FAIL_payments", 0)]) :=
  c3_cooldown_suppression (fun _ => 0) [("k", 0)] [] "k" "k" "j" "tA" "tB"
    0 ["a0"] [] 0 1 cooldownDelta rfl (by decide) (Or.inl rfl)
    (by decide) (by decide) (by decide)

/-! ## Level resolution (C8) -/

/-- Modelled from the spec, for comparison with the source translation:
the message-scan fallback of level resolution as the spec words it —
scan the message text case-insensitively for any level keyword, first
match wins in the declared order, else INFO. -/
def specScan (log : RawRecord) : String :=
  match LOG_LEVELS.find? (fun lv =>
    icontains (pyStr (rawGetD log "message" (.vStr ""))) lv) with
  | some lv => lv
  | none => "INFO"

/-- Modelled from the spec, for comparison with the source translation:
level resolution as the spec words it — explicit field uppercased and
validated against the fixed enumeration; else the message scan. -/
def specResolveLevel (log : RawRecord) : String :=
  match rawLookup log "level" with
  | some v =>
      let u := pyUpper (pyStr v)
      if u ∈ LOG_LEVELS then u else specScan log
  | none => specScan log

lemma scan_eq_specScan (log : RawRecord) :
    (match LOG_LEVELS.find? (fun lv =>
      pyContains (pyUpper (pyStr (rawGetD log "message" (.vStr "")))) lv) with
    | some lv => lv
    | none => "INFO") = specScan log := by
  unfold specScan icontains
  simp only [LOG_LEVELS, List.find?,
    show pyUpper "DEBUG" = "DEBUG" from by decide,
    show pyUpper "INFO" = "INFO" from by decide,
    show pyUpper "WARNING" = "WARNING" from by decide,
    show pyUpper "ERROR" = "ERROR" from by decide,
    show pyUpper "CRITICAL" = "CRITICAL" from by decide,
    show pyUpper "FATAL" = "FATAL" from by decide]

lemma scan_mem_levels (log : RawRecord) :
    (match LOG_LEVELS.find? (fun lv =>
      pyContains (pyUpper (pyStr (rawGetD log "message" (.vStr "")))) lv) with
    | some lv => lv
    | none => "INFO") ∈ LOG_LEVELS := by
  cases hf : LOG_LEVELS.find? (fun lv =>
      pyContains (pyUpper (pyStr (rawGetD log "message" (.vStr "")))) lv) with
  | none => simp [LOG_LEVELS]
  | some lv => simpa using List.mem_of_find?_eq_some hf

/-- C8: the level resolution of the source agrees with the spec wording —
explicit field uppercased and accepted only when in the enumeration,
else case-insensitive message scan with the first keyword in declared
order winning, else INFO — and its result is always a member of the
fixed enumeration. -/
theorem c8_level_resolution (log : RawRecord) :
    extract_log_level log = specResolveLevel log ∧
    extract_log_level log ∈ LOG_LEVELS := by
  unfold extract_log_level specResolveLevel
  cases hv : rawLookup log "level" with
  | none =>
      exact ⟨scan_eq_specScan log, scan_mem_levels log⟩
  | some v =>
      by_cases hu : pyUpper (pyStr v) ∈ LOG_LEVELS
      · simp only [if_pos hu]
        exact ⟨trivial, hu⟩
      · simp only [if_neg hu]
        exact ⟨scan_eq_specScan log, scan_mem_levels log⟩

end AIDevops
